import Mathlib

/-!
Verification of the leafy-db write-batching and cache-consistency engine
(`src/index.js`, classes `DatabaseManager` / `DatabaseTable`, and the
`Gitrows` adapter in `src/api/gitrows.js`).

The JavaScript source is shallowly embedded: each method becomes a pure
Lean function on an explicit state, asynchronous effects (promises,
network calls, timers) become explicit parameters and result fields, and
JavaScript exceptions become `Except` results.  Where a method both
mutates state and can throw, the function returns the state reached at
the moment the call finishes or throws, so that the store mutations a
throwing call has already performed remain visible.
-/

namespace LeafyDB

/-- Error values the engine can raise.  `notConnected` is the message
thrown by the private Cache getter, `closed` is the message thrown by
`waitForCommit`, `typeError` models the JavaScript TypeError raised by
property access on a falsy store value, and `remote` carries an HTTP
status code from the adapter. -/
inductive DBError where
  | notConnected
  | closed
  | typeError
  | remote (code : Nat)
deriving DecidableEq

/-- StringLike keys admitted by the table API (string, number, boolean).
Numbers are restricted to integers, which is the range exercised by the
library. -/
inductive StringLike where
  | str (s : String)
  | num (n : Int)
  | bool (b : Bool)
deriving DecidableEq

/-- JavaScript string coercion `key + ""` applied to a StringLike key. -/
def StringLike.toStr : StringLike → String
  | .str s => s
  | .num n => toString n
  | .bool b => if b then "true" else "false"

/-- Lookup of an own property of a plain object, modelled on an
association list. -/
def storeGet {V : Type} : List (String × V) → String → Option V
  | [], _ => none
  | p :: rest, k => if p.1 = k then some p.2 else storeGet rest k

/-- JavaScript property assignment `obj[k] = v` on a plain object:
replaces the value of an existing key in place, otherwise appends the
new key. -/
def storeSet {V : Type} : List (String × V) → String → V → List (String × V)
  | [], k, v => [(k, v)]
  | p :: rest, k, v => if p.1 = k then (k, v) :: rest else p :: storeSet rest k v

/-- Removal of an own property of a plain object. -/
def storeDelete {V : Type} : List (String × V) → String → List (String × V)
  | [], _ => []
  | p :: rest, k => if p.1 = k then rest else p :: storeDelete rest k

/-- JavaScript `Reflect.deleteProperty(obj, k)` on a plain object:
removes the own property if present and returns `true`; on a missing
property it also returns `true` (it returns `false` only for
non-configurable properties, which plain JSON stores never have). -/
def reflectDeleteProperty {V : Type} (s : List (String × V)) (k : String) :
    List (String × V) × Bool :=
  (storeDelete s k, true)

/-- The per-table interceptor hooks (`_.events`).  `beforeGet` receives
the raw looked-up value, which may be `undefined` (modelled as `none`). -/
structure Events (V : Type) where
  beforeSet : String → V → V
  beforeGet : String → Option V → Option V

/-- The default hooks: both identities, as in the source. -/
def Events.id (V : Type) : Events V := ⟨fun _ v => v, fun _ v => v⟩

/-- The mutable state of one `DatabaseTable`.

`cache_store` is the private field `#сache_store`; its JavaScript value
is either a JSON object (`some` association list) or a falsy value such
as `null` (`none`) — the field initializer makes it `{}`.  `isConnected`
is `_.isConnected`, `commitWaitQuene` holds the captured resolution
value of each queued completion callback, and `commitTimer` records
whether `_.commitTimer` currently holds an interval handle. -/
structure TableState (V : Type) where
  cache_store : Option (List (String × V))
  isConnected : Bool
  commitWaitQuene : List Bool
  commitTimer : Bool
deriving DecidableEq

/-- A fresh table as built by the constructor: `#сache_store = {}`
(an empty object, which is truthy), not connected, empty queue, no
timer. -/
def DatabaseTable.initial (V : Type) : TableState V :=
  ⟨some [], false, [], false⟩

/-- The private `#Cache` getter: returns the raw store when
`_.isConnected` holds and otherwise throws the not-connected error. -/
def DatabaseTable.cacheRead {V : Type} (t : TableState V) :
    Except DBError (Option (List (String × V))) :=
  if t.isConnected then Except.ok t.cache_store
  else Except.error DBError.notConnected

/-- `_.openCommitTimer()`: a no-op when an interval handle is already
stored, otherwise records a new interval handle. -/
def DatabaseTable.openCommitTimer {V : Type} (t : TableState V) : TableState V :=
  if t.commitTimer then t else { t with commitTimer := true }

/-- `waitForCommit(value)`: throws the closed error while the manager is
closed, otherwise opens the commit timer and pushes a completion
callback capturing `value`; the `ok` result carries the value the
enqueued promise will later resolve with. -/
def DatabaseTable.waitForCommit {V : Type} (closed : Bool) (t : TableState V)
    (value : Bool) : TableState V × Except DBError Bool :=
  if closed then (t, Except.error DBError.closed)
  else
    let t1 := DatabaseTable.openCommitTimer t
    ({ t1 with commitWaitQuene := t1.commitWaitQuene ++ [value] }, Except.ok value)

/-- `get(key)`: coerces the key to a string, reads the store through the
`#Cache` getter and passes the raw value through `beforeGet`. -/
def DatabaseTable.get {V : Type} (ev : Events V) (t : TableState V)
    (key : StringLike) : Except DBError (Option V) :=
  match DatabaseTable.cacheRead t with
  | .error e => .error e
  | .ok none => .error .typeError
  | .ok (some s) => .ok (ev.beforeGet key.toStr (storeGet s key.toStr))

/-- `set(key, value)`: coerces the key, applies `beforeSet`, assigns into
the store through the `#Cache` getter (which may throw first), then
calls `waitForCommit(true)`.  The returned state is the state at the end
of the call even when it throws, so a mutation performed before a throw
stays visible. -/
def DatabaseTable.set {V : Type} (ev : Events V) (closed : Bool)
    (t : TableState V) (key : StringLike) (value : V) :
    TableState V × Except DBError Bool :=
  let k := key.toStr
  let v := ev.beforeSet k value
  match DatabaseTable.cacheRead t with
  | .error e => (t, .error e)
  | .ok none => (t, .error .typeError)
  | .ok (some s) =>
      DatabaseTable.waitForCommit closed
        { t with cache_store := some (storeSet s k v) } true

/-- `delete(key)`: reads the store through the `#Cache` getter, applies
`Reflect.deleteProperty` with the coerced key, then calls
`waitForCommit` with the deletion result. -/
def DatabaseTable.delete {V : Type} (closed : Bool) (t : TableState V)
    (key : StringLike) : TableState V × Except DBError Bool :=
  match DatabaseTable.cacheRead t with
  | .error e => (t, .error e)
  | .ok none => (t, .error .typeError)
  | .ok (some s) =>
      let r := reflectDeleteProperty s key.toStr
      DatabaseTable.waitForCommit closed { t with cache_store := some r.1 } r.2

theorem storeGet_storeSet_self {V : Type} (s : List (String × V)) (k : String)
    (v : V) : storeGet (storeSet s k v) k = some v := by
  induction s with
  | nil => simp [storeSet, storeGet]
  | cons p rest ih =>
      by_cases h : p.1 = k <;> simp [storeSet, storeGet, h, ih]

theorem waitForCommit_fields {V : Type} (closed : Bool) (t : TableState V)
    (b : Bool) :
    (DatabaseTable.waitForCommit closed t b).1.cache_store = t.cache_store ∧
    (DatabaseTable.waitForCommit closed t b).1.isConnected = t.isConnected := by
  unfold DatabaseTable.waitForCommit DatabaseTable.openCommitTimer
  cases closed <;> by_cases h : t.commitTimer <;> simp [h]

/-- C1.  Read-your-writes: on a connected table, after `set(k, v)` is
called (whether or not the manager is closed, and without awaiting the
returned promise) a synchronous `get(k)` returns the post-hook transform
`beforeGet(k', beforeSet(k', v))` of `v`, where `k'` is the string
canonicalization of the key; with the default identity hooks this is `v`
itself. -/
theorem read_your_writes {V : Type} (ev : Events V) (closed : Bool)
    (t : TableState V) (s : List (String × V)) (k : StringLike) (v : V)
    (hs : t.cache_store = some s) (hc : t.isConnected = true) :
    DatabaseTable.get ev (DatabaseTable.set ev closed t k v).1 k
      = Except.ok (ev.beforeGet k.toStr (some (ev.beforeSet k.toStr v))) := by
  have h1 : DatabaseTable.set ev closed t k v =
      DatabaseTable.waitForCommit closed
        { t with cache_store := some (storeSet s k.toStr (ev.beforeSet k.toStr v)) }
        true := by
    simp [DatabaseTable.set, DatabaseTable.cacheRead, hc, hs]
  rw [h1]
  obtain ⟨e1, e2⟩ := waitForCommit_fields closed
    { t with cache_store := some (storeSet s k.toStr (ev.beforeSet k.toStr v)) } true
  simp only [DatabaseTable.get, DatabaseTable.cacheRead, e1, e2]
  simp [hc, storeGet_storeSet_self]

/-- Witness for C1: a concrete run with the numeric key 5 (canonicalized
to "5") and the default hooks. -/
theorem read_your_writes_witness :
    DatabaseTable.get (Events.id Nat)
        (DatabaseTable.set (Events.id Nat) false
          (⟨some [], true, [], false⟩ : TableState Nat)
          (StringLike.num 5) 7).1 (StringLike.num 5) = Except.ok (some 7) :=
  read_your_writes (Events.id Nat) false (⟨some [], true, [], false⟩ : TableState Nat)
    [] (StringLike.num 5) 7 rfl rfl

/-- The outcome of one run of `_.commit()`: the table state it leaves,
whether the adapter's replace operation was reached, and either the list
of resolved completion values or the error thrown. -/
structure CommitResult (V : Type) where
  table : TableState V
  replaceCalled : Bool
  result : Except DBError (List Bool)

/-- `_.commit()`: evaluates `this.t.#Cache` (throwing the not-connected
error before any network call when the table is not connected), awaits
the adapter's replace — whose outcome is the `replaceResult` parameter —
and on success calls every queued completion callback and clears the
queue; the `ok` result lists the values those callbacks resolved.  When
the replace rejects, the commit rejects with the whole state, queue
included, untouched. -/
def DatabaseTable.commit {V : Type} (replaceResult : Except DBError Unit)
    (t : TableState V) : CommitResult V :=
  if t.isConnected then
    match replaceResult with
    | .ok _ => ⟨{ t with commitWaitQuene := [] }, true, .ok t.commitWaitQuene⟩
    | .error e => ⟨t, true, .error e⟩
  else ⟨t, false, .error .notConnected⟩

theorem storeGet_storeDelete_ne {V : Type} (s : List (String × V)) (k k2 : String)
    (h : k2 ≠ k) : storeGet (storeDelete s k) k2 = storeGet s k2 := by
  have h' : ¬ (k = k2) := fun hh => h hh.symm
  induction s with
  | nil => rfl
  | cons p rest ih =>
      by_cases hp : p.1 = k
      · simp [storeDelete, storeGet, hp, h']
      · by_cases hq : p.1 = k2 <;> simp [storeDelete, storeGet, hp, hq, ih, h]

/-- C2 counterexample: on a connected table of a closed manager,
`set("a", 5)` does fail synchronously with the closed error, but the
store is NOT unchanged — the key has already been written when the
error is thrown, because the assignment into `#Cache` precedes the
`waitForCommit` closed check. -/
theorem closed_set_mutates_store_cex :
    (DatabaseTable.set (Events.id Nat) true (⟨some [], true, [], false⟩ : TableState Nat)
        (StringLike.str "a") 5).2 = Except.error DBError.closed ∧
    (DatabaseTable.set (Events.id Nat) true (⟨some [], true, [], false⟩ : TableState Nat)
        (StringLike.str "a") 5).1.cache_store = some [("a", 5)] ∧
    (some [(("a" : String), (5 : Nat))] ≠ (some [] : Option (List (String × Nat)))) :=
  ⟨rfl, rfl, by simp⟩

/-- C2 amended.  Once the manager's closed flag is true, `set` and
`delete` on a connected table fail synchronously with the closed error
and leave the pending queue (and the timer flag) untouched — but the
store mutation has already happened when the error is thrown: `set`
leaves the key written and `delete` leaves it removed. -/
theorem closed_rejection_amended {V : Type} (ev : Events V) (t : TableState V)
    (s : List (String × V)) (k : StringLike) (v : V)
    (hs : t.cache_store = some s) (hc : t.isConnected = true) :
    DatabaseTable.set ev true t k v =
      ({ t with cache_store := some (storeSet s k.toStr (ev.beforeSet k.toStr v)) },
        Except.error DBError.closed) ∧
    DatabaseTable.delete true t k =
      ({ t with cache_store := some (storeDelete s k.toStr) },
        Except.error DBError.closed) := by
  constructor <;>
    simp [DatabaseTable.set, DatabaseTable.delete, DatabaseTable.cacheRead,
      hc, hs, DatabaseTable.waitForCommit, reflectDeleteProperty]

/-- Witness for the amended C2: a concrete closed-manager `set` and
`delete`. -/
theorem closed_rejection_amended_witness :
    DatabaseTable.set (Events.id Nat) true
        (⟨some [("a", 1)], true, [], false⟩ : TableState Nat) (StringLike.str "b") 2 =
      (⟨some [("a", 1), ("b", 2)], true, [], false⟩, Except.error DBError.closed) ∧
    DatabaseTable.delete true
        (⟨some [("a", 1)], true, [], false⟩ : TableState Nat) (StringLike.str "a") =
      (⟨some [], true, [], false⟩, Except.error DBError.closed) :=
  closed_rejection_amended (Events.id Nat)
    (⟨some [("a", 1)], true, [], false⟩ : TableState Nat) [("a", 1)]
    (StringLike.str "b") 2 rfl rfl |>.imp
    (fun h => by simpa [storeSet] using h)
    (fun _ => by
      simpa [storeDelete] using
        (closed_rejection_amended (Events.id Nat)
          (⟨some [("a", 1)], true, [], false⟩ : TableState Nat) [("a", 1)]
          (StringLike.str "a") 2 rfl rfl).2)

/-- C3 counterexample: deleting the absent key "missing" from a
connected table resolves to `true`, not `false` — `Reflect.deleteProperty`
returns `true` for a missing property of a plain object — while other
keys are indeed unaffected. -/
theorem delete_missing_resolves_true_cex :
    (DatabaseTable.delete false (⟨some [("a", 1)], true, [], false⟩ : TableState Nat)
        (StringLike.str "missing")).2 = Except.ok true ∧
    (DatabaseTable.commit (Except.ok ())
        (DatabaseTable.delete false (⟨some [("a", 1)], true, [], false⟩ : TableState Nat)
          (StringLike.str "missing")).1).result = Except.ok [true] ∧
    storeGet ((DatabaseTable.delete false
        (⟨some [("a", 1)], true, [], false⟩ : TableState Nat)
        (StringLike.str "missing")).1.cache_store.getD []) "a" = some 1 ∧
    (Except.ok [true] : Except DBError (List Bool)) ≠ Except.ok [false] :=
  ⟨rfl, rfl, rfl, by simp⟩

/-- C3 amended.  On a connected table of an open manager, `delete(k)`
enqueues a completion resolving to `true` whether or not the key was
present (the deletion result of a plain object is always `true`), the
key is removed from the store, every other key is unaffected, and when
the next flush succeeds the queued completions — this one included —
resolve. -/
theorem delete_resolution_amended {V : Type} (t : TableState V)
    (s : List (String × V)) (k : StringLike)
    (hs : t.cache_store = some s) (hc : t.isConnected = true) :
    (DatabaseTable.delete false t k).2 = Except.ok true ∧
    (DatabaseTable.delete false t k).1.cache_store = some (storeDelete s k.toStr) ∧
    (∀ k2, k2 ≠ k.toStr → storeGet (storeDelete s k.toStr) k2 = storeGet s k2) ∧
    (DatabaseTable.commit (Except.ok ()) (DatabaseTable.delete false t k).1).result =
      Except.ok (t.commitWaitQuene ++ [true]) := by
  have hd : DatabaseTable.delete false t k =
      DatabaseTable.waitForCommit false
        { t with cache_store := some (storeDelete s k.toStr) } true := by
    simp [DatabaseTable.delete, DatabaseTable.cacheRead, hc, hs, reflectDeleteProperty]
  refine ⟨?_, ?_, ?_, ?_⟩
  · rw [hd]; unfold DatabaseTable.waitForCommit; simp
  · rw [hd]; exact (waitForCommit_fields false _ true).1
  · intro k2 hk2; exact storeGet_storeDelete_ne s k.toStr k2 hk2
  · rw [hd]
    unfold DatabaseTable.waitForCommit DatabaseTable.openCommitTimer DatabaseTable.commit
    by_cases h : t.commitTimer <;> simp [h, hc]

/-- Witness for the amended C3: deleting a present key from a concrete
two-key table. -/
theorem delete_resolution_amended_witness :
    (DatabaseTable.delete false
        (⟨some [("a", 1), ("b", 2)], true, [], false⟩ : TableState Nat)
        (StringLike.str "b")).2 = Except.ok true ∧
    (DatabaseTable.delete false
        (⟨some [("a", 1), ("b", 2)], true, [], false⟩ : TableState Nat)
        (StringLike.str "b")).1.cache_store = some [("a", 1)] ∧
    storeGet (storeDelete [("a", (1 : Nat)), ("b", 2)] "b") "a" =
      storeGet [("a", (1 : Nat)), ("b", 2)] "a" := by
  have h := delete_resolution_amended
    (⟨some [("a", 1), ("b", 2)], true, [], false⟩ : TableState Nat)
    [("a", 1), ("b", 2)] (StringLike.str "b") rfl rfl
  exact ⟨h.1, by simpa [storeDelete] using h.2.1, h.2.2.1 "a" (by simp [StringLike.toStr])⟩

/-- C6.  When the remote write of a flush fails, the flush rejects with
that error and the table — the pending queue in particular — is exactly
as before: no queued completion is resolved or removed, so the next
flush retries them all. -/
theorem failed_flush_preserves_queue {V : Type} (t : TableState V) (e : DBError)
    (hc : t.isConnected = true) :
    DatabaseTable.commit (Except.error e) t = ⟨t, true, Except.error e⟩ := by
  simp [DatabaseTable.commit, hc]

/-- Witness for C6: a failed flush of a table with two pending waiters. -/
theorem failed_flush_preserves_queue_witness :
    DatabaseTable.commit (Except.error (DBError.remote 409))
        (⟨some [], true, [true, true], true⟩ : TableState Nat) =
      ⟨⟨some [], true, [true, true], true⟩, true, Except.error (DBError.remote 409)⟩ :=
  failed_flush_preserves_queue (⟨some [], true, [true, true], true⟩ : TableState Nat)
    (DBError.remote 409) rfl

/-- C10.  On a table that has never been connected, `set` and `delete`
fail with the not-connected error for every value of the manager's
closed flag — the initial `closed = true` included — because the
`#Cache` getter runs before `waitForCommit`'s closed check; the state is
untouched. -/
theorem notconnected_before_closed {V : Type} (ev : Events V) (closed : Bool)
    (t : TableState V) (k : StringLike) (v : V) (h : t.isConnected = false) :
    DatabaseTable.set ev closed t k v = (t, Except.error DBError.notConnected) ∧
    DatabaseTable.delete closed t k = (t, Except.error DBError.notConnected) := by
  constructor <;>
    simp [DatabaseTable.set, DatabaseTable.delete, DatabaseTable.cacheRead, h]

/-- Witness for C10: a fresh table under the initially-closed manager. -/
theorem notconnected_before_closed_witness :
    DatabaseTable.set (Events.id Nat) true (DatabaseTable.initial Nat)
        (StringLike.str "k") 1 =
      (DatabaseTable.initial Nat, Except.error DBError.notConnected) ∧
    DatabaseTable.delete true (DatabaseTable.initial Nat) (StringLike.str "k") =
      (DatabaseTable.initial Nat, Except.error DBError.notConnected) :=
  notconnected_before_closed (Events.id Nat) true (DatabaseTable.initial Nat)
    (StringLike.str "k") 1 rfl

/-- The outcome of one firing of the commit interval callback. -/
structure TimerFireResult (V : Type) where
  table : TableState V
  replaceCalled : Bool
  result : Except DBError Unit

/-- One firing of the interval callback installed by
`_.openCommitTimer()`: when the manager is closed the callback returns
at once — the interval handle is NOT cleared, so the interval stays
scheduled and fires again; otherwise it awaits `commit()`, and only
when that succeeds does it clear the interval and drop the handle (a
rejected commit leaves the handle in place, so the interval retries). -/
def DatabaseTable.timerFire {V : Type} (closed : Bool)
    (replaceResult : Except DBError Unit) (t : TableState V) : TimerFireResult V :=
  if closed then ⟨t, false, Except.ok ()⟩
  else
    let c := DatabaseTable.commit replaceResult t
    match c.result with
    | .error e => ⟨c.table, c.replaceCalled, .error e⟩
    | .ok _ => ⟨{ c.table with commitTimer := false }, c.replaceCalled, .ok ()⟩

/-- C9 counterexample: when the interval fires while the manager is
closed, the cycle indeed performs no flush and leaves the queue
unchanged — but the timer is NOT cleared: the interval handle is still
in place after the firing, so the timer remains scheduled. -/
theorem closed_fire_keeps_timer_cex :
    DatabaseTable.timerFire true (Except.ok ())
        (⟨some [], true, [true], true⟩ : TableState Nat) =
      ⟨⟨some [], true, [true], true⟩, false, Except.ok ()⟩ ∧
    (DatabaseTable.timerFire true (Except.ok ())
        (⟨some [], true, [true], true⟩ : TableState Nat)).table.commitTimer ≠ false :=
  ⟨rfl, by simp [DatabaseTable.timerFire]⟩

/-- C9 amended.  Scheduling is idempotent (a second request while the
timer handle exists changes nothing), and a firing while the manager is
closed performs no flush and leaves the whole state — pending queue AND
timer handle — unchanged: the interval is not cleared and stays
scheduled.  A firing with the manager open runs the flush: on success
it resolves the queue and clears the timer; on failure it leaves queue
and timer in place for the next interval firing. -/
theorem timer_behavior_amended {V : Type} (t : TableState V)
    (r : Except DBError Unit) (e : DBError) :
    (t.commitTimer = true → DatabaseTable.openCommitTimer t = t) ∧
    (DatabaseTable.timerFire true r t = ⟨t, false, Except.ok ()⟩) ∧
    (t.isConnected = true →
      DatabaseTable.timerFire false (Except.ok ()) t =
        ⟨{ t with commitWaitQuene := [], commitTimer := false }, true, Except.ok ()⟩) ∧
    (t.isConnected = true →
      DatabaseTable.timerFire false (Except.error e) t = ⟨t, true, Except.error e⟩) := by
  refine ⟨fun h => by simp [DatabaseTable.openCommitTimer, h], rfl, fun h => ?_, fun h => ?_⟩
  · simp [DatabaseTable.timerFire, DatabaseTable.commit, h]
  · simp [DatabaseTable.timerFire, DatabaseTable.commit, h]

/-- Witness for the amended C9: concrete firings of the interval over a
connected table with one pending waiter. -/
theorem timer_behavior_amended_witness :
    DatabaseTable.openCommitTimer (⟨some [], true, [true], true⟩ : TableState Nat) =
      ⟨some [], true, [true], true⟩ ∧
    DatabaseTable.timerFire false (Except.ok ())
        (⟨some [], true, [true], true⟩ : TableState Nat) =
      ⟨⟨some [], true, [], false⟩, true, Except.ok ()⟩ ∧
    DatabaseTable.timerFire false (Except.error (DBError.remote 409))
        (⟨some [], true, [true], true⟩ : TableState Nat) =
      ⟨⟨some [], true, [true], true⟩, true, Except.error (DBError.remote 409)⟩ := by
  have h := timer_behavior_amended (⟨some [], true, [true], true⟩ : TableState Nat)
    (Except.ok ()) (DBError.remote 409)
  exact ⟨h.1 rfl, h.2.2.1 rfl, h.2.2.2 rfl⟩

/-- The possible outcomes of the connect-time `GitDB.get` fetch of a
table's file: a resolved value (whose JSON content is either an object,
`some`, or a falsy value such as `null`, `none`), a rejection whose
message contains "404", or any other rejection. -/
inductive FetchResult (V : Type) where
  | ok (content : Option (List (String × V)))
  | notFound
  | fail (e : DBError)

/-- The outcome of one run of `_.connect()` for a table: the state it
leaves, whether `createTableFile()` was called, and whether the run
completed or rethrew. -/
structure ConnectResult (V : Type) where
  table : TableState V
  createCalled : Bool
  result : Except DBError Unit

/-- `_.connect()` from `src/index.js`: the try block assigns the fetched
value to `#Cache` and marks the table connected; a "404" rejection is
caught (only an error message string is prepared), any other rejection
is rethrown.  Afterwards, ONLY if `#сache_store` is falsy does the
recovery branch run: log, `createTableFile()`, store = `{}`, connected.
Because the field initializer already set the store to the truthy empty
object, the store is still truthy after a caught 404, so the recovery
branch is skipped on that path. -/
def DatabaseTable.connect {V : Type} (f : FetchResult V) (t : TableState V) :
    ConnectResult V :=
  match f with
  | .fail e => ⟨t, false, Except.error e⟩
  | .notFound =>
      if t.cache_store.isSome then ⟨t, false, Except.ok ()⟩
      else ⟨{ t with cache_store := some [], isConnected := true }, true, Except.ok ()⟩
  | .ok content =>
      let t1 : TableState V := { t with cache_store := content, isConnected := true }
      if t1.cache_store.isSome then ⟨t1, false, Except.ok ()⟩
      else ⟨{ t1 with cache_store := some [], isConnected := true }, true, Except.ok ()⟩

/-- C4 (code defect).  When the connect-time fetch of a fresh table
rejects with the adapter's not-found signal, the run completes without
error but performs NONE of the specified recovery: no create call is
made and the table is left unconnected, because the store was
initialized to the truthy `{}` and the falsy-store recovery test
therefore fails. -/
theorem connect_notfound_skips_recovery :
    DatabaseTable.connect FetchResult.notFound (DatabaseTable.initial Nat) =
      ⟨DatabaseTable.initial Nat, false, Except.ok ()⟩ := rfl

/-- The outcome of `DatabaseManager.commitAll()`: the tables it leaves,
how many adapter replace calls were issued, and the overall promise
outcome. -/
structure CommitAllResult (V : Type) where
  tables : List (TableState V)
  replaceCalls : Nat
  result : Except DBError Unit

/-- The default commit threshold, `options.commit.minQueneSize ?? 1`. -/
def defaultQueneSize : Nat := 1

/-- `DatabaseManager.commitAll()` as currently written in
`src/index.js`: it awaits `table._.commit()` for EVERY registered
table, sequentially, with no queue-length comparison against the
configured threshold; a rejected commit aborts the loop, leaving later
tables untouched.  Each table is paired with the outcome its replace
call would have. -/
def DatabaseManager.commitAll {V : Type} :
    List (TableState V × Except DBError Unit) → CommitAllResult V
  | [] => ⟨[], 0, Except.ok ()⟩
  | (t, r) :: rest =>
      let c := DatabaseTable.commit r t
      match c.result with
      | .error e =>
          ⟨c.table :: rest.map Prod.fst, if c.replaceCalled then 1 else 0,
            Except.error e⟩
      | .ok _ =>
          let next := DatabaseManager.commitAll rest
          ⟨c.table :: next.tables,
            (if c.replaceCalled then 1 else 0) + next.replaceCalls, next.result⟩

/-- C5 (code defect).  `commitAll` ignores the queue-size threshold its
own doc comment (and every earlier revision) promises: a connected
table whose queue is empty — below the default threshold of 1 — still
gets a remote replace call.  And the loop is sequential, not a
concurrent wait-for-all: when the first table's replace rejects, the
second table — whose queue IS over threshold — never gets flushed and
keeps its waiter. -/
theorem commitAll_flushes_below_threshold :
    ((⟨some [], true, [], false⟩ : TableState Nat).commitWaitQuene.length
        < defaultQueneSize) ∧
    (DatabaseManager.commitAll
        [((⟨some [], true, [], false⟩ : TableState Nat), Except.ok ())]).replaceCalls
      = 1 ∧
    (DatabaseManager.commitAll
        [((⟨some [], true, [], false⟩ : TableState Nat),
            Except.error (DBError.remote 500)),
          ((⟨some [], true, [true], false⟩ : TableState Nat), Except.ok ())]).replaceCalls
      = 1 ∧
    (DatabaseManager.commitAll
        [((⟨some [], true, [], false⟩ : TableState Nat),
            Except.error (DBError.remote 500)),
          ((⟨some [], true, [true], false⟩ : TableState Nat), Except.ok ())]).tables
      = [⟨some [], true, [], false⟩, ⟨some [], true, [true], false⟩] :=
  ⟨by decide, rfl, rfl, rfl⟩

/-- The body of `DatabaseManager.connect()`'s loop over the tables that
the filter kept: already-connected tables are skipped untouched with no
network call; each remaining table gets one connect attempt, in
registration order, and the first rethrown error aborts the loop with
every later table untouched.  Each table is paired with the outcome its
connect-time fetch would have; the middle component counts the fetch
attempts made. -/
def connectLoop {V : Type} :
    List (TableState V × FetchResult V) →
      List (TableState V) × Nat × Except DBError Unit
  | [] => ([], 0, Except.ok ())
  | (t, f) :: rest =>
      if t.isConnected then
        let r := connectLoop rest
        (t :: r.1, r.2)
      else
        let c := DatabaseTable.connect f t
        match c.result with
        | .error e => (c.table :: rest.map Prod.fst, 1, Except.error e)
        | .ok _ =>
            let r := connectLoop rest
            (c.table :: r.1, 1 + r.2.1, r.2.2)

/-- The outcome of `DatabaseManager.connect()`: the tables it leaves,
the manager's closed flag afterwards, the number of connect-time fetch
attempts, and the overall promise outcome. -/
structure ManagerConnectResult (V : Type) where
  tables : List (TableState V)
  closed : Bool
  attempts : Nat
  result : Except DBError Unit

/-- `DatabaseManager.connect()`: filters to the not-yet-connected
tables and returns at once — leaving the closed flag as it was — when
none remain; otherwise it runs the sequential connect loop, and only
when every attempted connect completed does it clear the manager-wide
closed flag. -/
def DatabaseManager.connect {V : Type} (closed : Bool)
    (tables : List (TableState V × FetchResult V)) : ManagerConnectResult V :=
  if tables.all (fun p => p.1.isConnected) then
    ⟨tables.map Prod.fst, closed, 0, Except.ok ()⟩
  else
    let r := connectLoop tables
    match r.2.2 with
    | .ok _ => ⟨r.1, false, r.2.1, Except.ok ()⟩
    | .error e => ⟨r.1, closed, r.2.1, Except.error e⟩

theorem connectLoop_abort {V : Type}
    (pre post : List (TableState V × FetchResult V)) (t : TableState V)
    (f : FetchResult V) (ts : List (TableState V)) (n : Nat) (e : DBError)
    (hpre : connectLoop pre = (ts, n, Except.ok ()))
    (ht : t.isConnected = false)
    (hf : (DatabaseTable.connect f t).result = Except.error e) :
    connectLoop (pre ++ (t, f) :: post) =
      (ts ++ (DatabaseTable.connect f t).table :: post.map Prod.fst, n + 1,
        Except.error e) := by
  induction pre generalizing ts n with
  | nil =>
      simp only [connectLoop, Prod.mk.injEq] at hpre
      obtain ⟨h1, h2, -⟩ := hpre
      subst h1 h2
      simp [connectLoop, ht, hf]
  | cons hd rest ih =>
      obtain ⟨t0, f0⟩ := hd
      by_cases hcon : t0.isConnected = true
      · rcases hcr : connectLoop rest with ⟨ts1, n1, res1⟩
        simp only [connectLoop, hcon, if_true, hcr, Prod.mk.injEq] at hpre
        obtain ⟨h1, h2, h3⟩ := hpre
        subst h1 h2 h3
        have := ih ts1 n1 hcr
        simp [connectLoop, hcon, this]
      · rcases hr : (DatabaseTable.connect f0 t0).result with e1 | u
        · simp [connectLoop, hcon, hr] at hpre
        · rcases hcr : connectLoop rest with ⟨ts1, n1, res1⟩
          simp only [connectLoop, hcon, if_false, hr, hcr, Prod.mk.injEq,
            Bool.false_eq_true, ite_false] at hpre
          obtain ⟨h1, h2, h3⟩ := hpre
          subst h1 h2 h3
          have hrec := ih ts1 n1 hcr
          simp only [List.cons_append, connectLoop, hcon, hr, hrec,
            Bool.false_eq_true, ite_false]
          simp [Nat.add_assoc, hrec]

/-- C7.  `DatabaseManager.connect()` considers only tables not yet
connected, in registration order: (1) when every table is already
connected it returns immediately — no fetch attempt, every table and
the closed flag untouched; (2) an already-connected table is skipped
untouched by the loop; (3) within the loop, once the earlier entries
have all completed, the first table whose connect rethrows aborts the
loop — the earlier tables keep the states their connects produced,
every later table is untouched, and the error propagates; (4) a failed
run leaves the manager-wide closed flag as it was; (5) a completed run
that attempted at least one table clears the closed flag. -/
theorem manager_connect_spec {V : Type} (closed : Bool)
    (tables pre post : List (TableState V × FetchResult V)) (t : TableState V)
    (f : FetchResult V) (ts : List (TableState V)) (n : Nat) (e : DBError) :
    ((tables.all fun p => p.1.isConnected) = true →
      DatabaseManager.connect closed tables =
        ⟨tables.map Prod.fst, closed, 0, Except.ok ()⟩) ∧
    (t.isConnected = true →
      connectLoop ((t, f) :: post) =
        (t :: (connectLoop post).1, (connectLoop post).2)) ∧
    (connectLoop pre = (ts, n, Except.ok ()) → t.isConnected = false →
      (DatabaseTable.connect f t).result = Except.error e →
      connectLoop (pre ++ (t, f) :: post) =
        (ts ++ (DatabaseTable.connect f t).table :: post.map Prod.fst, n + 1,
          Except.error e)) ∧
    ((DatabaseManager.connect closed tables).result = Except.error e →
      (DatabaseManager.connect closed tables).closed = closed) ∧
    ((tables.all fun p => p.1.isConnected) = false →
      (DatabaseManager.connect closed tables).result = Except.ok () →
      (DatabaseManager.connect closed tables).closed = false) := by
  refine ⟨fun h => by simp [DatabaseManager.connect, h],
    fun h => by simp [connectLoop, h],
    fun h1 h2 h3 => connectLoop_abort pre post t f ts n e h1 h2 h3, ?_, ?_⟩
  · intro h
    cases hall : tables.all fun p => p.1.isConnected with
    | true => simp [DatabaseManager.connect, hall] at h
    | false =>
        rcases hr : (connectLoop tables).2.2 with e1 | u
        · simp [DatabaseManager.connect, hall, hr]
        · simp [DatabaseManager.connect, hall, hr] at h
  · intro hall h
    rcases hr : (connectLoop tables).2.2 with e1 | u
    · simp [DatabaseManager.connect, hall, hr] at h
    · simp [DatabaseManager.connect, hall, hr]

/-- Witness for C7: an all-connected manager returns untouched with no
fetch; connecting one fresh table clears the closed flag; a fresh table
whose fetch rejects aborts the loop with the error after one attempt. -/
theorem manager_connect_spec_witness :
    DatabaseManager.connect true
        [((⟨some [("x", 1)], true, [], false⟩ : TableState Nat),
          FetchResult.ok (some []))] =
      ⟨[⟨some [("x", 1)], true, [], false⟩], true, 0, Except.ok ()⟩ ∧
    (DatabaseManager.connect true
        [(DatabaseTable.initial Nat, FetchResult.ok (some [("x", 1)]))]).closed
      = false ∧
    connectLoop [(DatabaseTable.initial Nat, FetchResult.fail (DBError.remote 500))] =
      ([DatabaseTable.initial Nat], 1, Except.error (DBError.remote 500)) := by
  refine ⟨?_, ?_, ?_⟩
  · exact (manager_connect_spec true
      [((⟨some [("x", 1)], true, [], false⟩ : TableState Nat), FetchResult.ok (some []))]
      [] [] (DatabaseTable.initial Nat) FetchResult.notFound [] 0
      DBError.notConnected).1 rfl
  · exact (manager_connect_spec true
      [(DatabaseTable.initial Nat, FetchResult.ok (some [("x", 1)]))]
      [] [] (DatabaseTable.initial Nat) FetchResult.notFound [] 0
      DBError.notConnected).2.2.2.2 rfl rfl
  · have h := (manager_connect_spec true [] [] []
      (DatabaseTable.initial Nat) (FetchResult.fail (DBError.remote 500)) [] 0
      (DBError.remote 500)).2.2.1 rfl rfl rfl
    simpa using h

/-- The status object `Response(code)` the adapter builds from an HTTP
status. -/
structure Response where
  code : Nat
deriving DecidableEq

/-- The remote file as the hosting API sees it: its JSON content and
its current sha (the opaque revision fingerprint). -/
structure RemoteFile (V : Type) where
  content : List (String × V)
  sha : String
deriving DecidableEq

/-- The body of one `Gitrows.push` request: the content sent (absent
for a delete) and the sha sent (absent when no sha was supplied). -/
structure PushCall (V : Type) where
  content : Option (List (String × V))
  sha : Option String
deriving DecidableEq

/-- `Gitrows.pull`: fetches the file from the remote and returns its
current sha together with its content. -/
def Gitrows.pull {V : Type} (r : RemoteFile V) : String × List (String × V) :=
  (r.sha, r.content)

/-- `Gitrows.get` (the connect-time fetch): pulls and returns only the
decoded content — the sha the pull carried is discarded, so a fetch
records no revision anywhere. -/
def Gitrows.get {V : Type} (r : RemoteFile V) : List (String × V) :=
  (Gitrows.pull r).2

/-- `Gitrows.replace` (the flush's write): pulls the file to obtain its
CURRENT sha, pushes the data with that freshly pulled sha, and returns
`Response(202)`.  The first component records the push request issued. -/
def Gitrows.replace {V : Type} (r : RemoteFile V) (data : List (String × V)) :
    PushCall V × Response :=
  (⟨some data, some (Gitrows.pull r).1⟩, ⟨202⟩)

/-- Follows the spec's words, for comparison with the source (C8 is a
refinement claim): "revision: opaque token — last known remote content
fingerprint ... updated after every successful fetch or flush".  After
a connect-time fetch of a file whose sha was `shaAtFetch`, with no
flush since, the spec's recorded revision is that sha. -/
def specLastKnownRevision (shaAtFetch : String) : String := shaAtFetch

/-- C8 counterexample: a table fetched its file when the remote sha was
"sha-a" (the spec's last-known revision); the remote has since advanced
to "sha-b".  The next flush's replace sends "sha-b" — the sha it pulls
freshly at flush time — not the last-known token, and its return value
is the constant status `Response(202)` whatever the remote holds, so no
revision can be recorded from it. -/
theorem flush_sends_fresh_sha_cex :
    (Gitrows.replace (⟨[], "sha-b"⟩ : RemoteFile Nat) [("k", 1)]).1.sha
      = some "sha-b" ∧
    (Gitrows.replace (⟨[], "sha-b"⟩ : RemoteFile Nat) [("k", 1)]).1.sha
      ≠ some (specLastKnownRevision "sha-a") ∧
    (Gitrows.replace (⟨[], "sha-b"⟩ : RemoteFile Nat) [("k", 1)]).2
      = (Gitrows.replace (⟨[], "sha-c"⟩ : RemoteFile Nat) [("k", 2)]).2 :=
  ⟨rfl, by decide, rfl⟩

/-- C8 amended.  No revision token is recorded by a table: the
connect-time fetch discards the pulled sha, and each flush's replace
freshly pulls the file's current sha and sends that — rather than any
stored token — with its write, whose return value is the constant
status response 202, not a revision. -/
theorem replace_pull_then_push {V : Type} (r : RemoteFile V)
    (data : List (String × V)) :
    Gitrows.get r = r.content ∧
    (Gitrows.replace r data).1.sha = some r.sha ∧
    (Gitrows.replace r data).1.content = some data ∧
    (Gitrows.replace r data).2 = ⟨202⟩ :=
  ⟨rfl, rfl, rfl, rfl⟩

end LeafyDB
